import Mathlib

/-!
# SASL PLAIN mechanism (`src/sasl_plain.c`)

A shallow embedding of `sasl_plain.c`.

* Bytes are natural numbers; a C string argument is the `char` array its
  pointer addresses (`List Nat`), or `none` for a `NULL` pointer.  The string
  it denotes is the prefix before the first `0`; what follows the terminator
  is still part of the array and may be read by `memcpy`.
* The heap managed by `amqpalloc_malloc` / `amqpalloc_free` is explicit
  state.  Every function that can run into undefined behaviour in C
  (reading past the end of an array, `strlen` of an unterminated array,
  dereferencing a dangling handle, ...) returns `Option`, `none` standing for
  undefined behaviour.
* `size_t` sums are taken in `Nat`: the three lengths measure arrays that
  exist in memory, so their sum plus two does not wrap.
-/

namespace SaslPlain

/-! ## Pointers, blocks and the allocator -/

/-- A pointer into the heap managed by the allocator: `NULL` or the address
of a block. -/
inductive Ptr where
  | null
  | addr (a : Nat)
  deriving DecidableEq, Repr

/-- The contents of one heap block.  A freshly allocated block holds
indeterminate values, written `none`. -/
inductive Block where
  /-- a byte buffer (`unsigned char*`), one cell per byte -/
  | bytes (data : List (Option Nat))
  /-- a `SASL_PLAIN_INSTANCE`: the fields `init_bytes` and `init_bytes_length` -/
  | inst (init_bytes : Option Ptr) (init_bytes_length : Option Nat)
  deriving DecidableEq, Repr

/-- Modelled from the spec: the allocator behind `amqpalloc_malloc` and
`amqpalloc_free` (`amqpalloc.h` is not among the sources), "an opaque
allocate/free capability" whose failures "propagate as construction failure".
`live` lists the live allocations by address; `script` fixes the answers to
the coming requests (`false`: the request is refused; requests beyond the
script are granted). -/
structure Heap where
  live : List (Nat × Block)
  script : List Bool
  deriving DecidableEq, Repr

/-- An address above every live one. -/
def fresh : List (Nat × Block) → Nat
  | [] => 1
  | (k, _) :: t => max (k + 1) (fresh t)

/-- The block at an address, if that address is live. -/
def findBlock : List (Nat × Block) → Nat → Option Block
  | [], _ => none
  | (k, b) :: t, a => if k = a then some b else findBlock t a

/-- Replace the block at an address. -/
def setBlock : List (Nat × Block) → Nat → Block → List (Nat × Block)
  | [], _, _ => []
  | (k, b) :: t, a, nb => if k = a then (k, nb) :: t else (k, b) :: setBlock t a nb

/-- Modelled from the spec: `amqpalloc_malloc`, absent from the sources.  The
request is answered from the script; a granted request yields a new live
block with indeterminate contents at a fresh address.  `blk` is the
indeterminate block of the requested size, seen at the type the caller uses
it at. -/
def amqpalloc_malloc (h : Heap) (blk : Block) : Ptr × Heap :=
  match h.script with
  | false :: s => (Ptr.null, { h with script := s })
  | s => (Ptr.addr (fresh h.live),
          { live := (fresh h.live, blk) :: h.live, script := s.tail })

/-- Modelled from the spec: `amqpalloc_free`, absent from the sources.
Releasing an address that is not live is undefined. -/
def amqpalloc_free (h : Heap) (a : Nat) : Option Heap :=
  match findBlock h.live a with
  | none => none
  | some _ => some { h with live := h.live.filter (fun e => e.1 ≠ a) }

/-! ## `string.h` -/

/-- `strlen` of the array `s`: the number of bytes before the first `0`;
undefined when the array holds no terminator. -/
def strlenArr : List Nat → Option Nat
  | [] => none
  | c :: t => if c = 0 then some 0 else (strlenArr t).map (· + 1)

/-- `strlen(p)`; undefined on a `NULL` pointer. -/
def strlen (p : Option (List Nat)) : Option Nat :=
  match p with
  | none => none
  | some s => strlenArr s

/-- Overwrite `bs.length` cells of a buffer from offset `off` on; undefined
when the range leaves the buffer. -/
def writeAt (data : List (Option Nat)) (off : Nat) (bs : List Nat) :
    Option (List (Option Nat)) :=
  if off + bs.length ≤ data.length then
    some (data.take off ++ bs.map some ++ data.drop (off + bs.length))
  else none

/-- Write the bytes `bs` into the byte buffer at address `a`, from offset
`off` on. -/
def storeBytes (h : Heap) (p : Ptr) (off : Nat) (bs : List Nat) : Option Heap :=
  match p with
  | Ptr.null => none
  | Ptr.addr a =>
    match findBlock h.live a with
    | some (Block.bytes data) =>
      match writeAt data off bs with
      | some data1 => some { h with live := setBlock h.live a (Block.bytes data1) }
      | none => none
    | _ => none

/-- The `n` bytes a `memcpy` reads from the source pointer `src`.  Copying
no bytes reads nothing (also from `NULL`); reading past the end of the
source array is undefined. -/
def memcpySrc (src : Option (List Nat)) (n : Nat) : Option (List Nat) :=
  if n = 0 then some []
  else
    match src with
    | none => none
    | some s => if n ≤ s.length then some (s.take n) else none

/-- `memcpy(dst + off, src, n)` for a destination in the heap and a source
array of the caller. -/
def memcpy (h : Heap) (dst : Ptr) (off : Nat) (src : Option (List Nat)) (n : Nat) :
    Option Heap :=
  match memcpySrc src n with
  | none => none
  | some bs => storeBytes h dst off bs

/-! ## `sasl_plain.c` -/

/-- The caller's `SASL_PLAIN_CONFIG`: three `const char*` fields. -/
structure SASL_PLAIN_CONFIG where
  authzid : Option (List Nat)
  authcid : Option (List Nat)
  passwd : Option (List Nat)
  deriving DecidableEq, Repr

/-- The caller's `SASL_MECHANISM_BYTES`: a pointer and a length.  The type
is declared in `sasl_mechanism.h`, absent from the sources; `length` is
taken wide enough for every `size_t` stored into it. -/
structure SASL_MECHANISM_BYTES where
  bytes : Ptr
  length : Nat
  deriving DecidableEq, Repr

/-- Store into the field `init_bytes` of the instance at address `a`. -/
def set_init_bytes (h : Heap) (a : Nat) (p : Ptr) : Option Heap :=
  match findBlock h.live a with
  | some (Block.inst _ n) => some { h with live := setBlock h.live a (Block.inst (some p) n) }
  | _ => none

/-- Store into the field `init_bytes_length` of the instance at address `a`. -/
def set_init_bytes_length (h : Heap) (a : Nat) (n : Nat) : Option Heap :=
  match findBlock h.live a with
  | some (Block.inst p _) => some { h with live := setBlock h.live a (Block.inst p (some n)) }
  | _ => none

/-- Load the field `init_bytes` of the instance at address `a`. -/
def get_init_bytes_field (h : Heap) (a : Nat) : Option Ptr :=
  match findBlock h.live a with
  | some (Block.inst (some p) _) => some p
  | _ => none

/-- Load the field `init_bytes_length` of the instance at address `a`. -/
def get_init_bytes_length_field (h : Heap) (a : Nat) : Option Nat :=
  match findBlock h.live a with
  | some (Block.inst _ (some n)) => some n
  | _ => none

/-- The function `saslplain_create` (lines 28-80).  The result is the
returned handle and the heap after the call. -/
def saslplain_create (h : Heap) (config : Option SASL_PLAIN_CONFIG) : Option (Ptr × Heap) :=
  match config with
  | none => some (Ptr.null, h)
  | some sasl_plain_config =>
    if sasl_plain_config.authcid = none ∨ sasl_plain_config.passwd = none then
      some (Ptr.null, h)
    else
      match amqpalloc_malloc h (Block.inst none none) with
      | (Ptr.null, h1) => some (Ptr.null, h1)
      | (Ptr.addr result, h1) => do
        let authzid_length ←
          (if sasl_plain_config.authzid = none then some 0 else strlen sasl_plain_config.authcid)
        let authcid_length ← strlen sasl_plain_config.authcid
        let passwd_length ← strlen sasl_plain_config.passwd
        let (p, h2) := amqpalloc_malloc h1
          (Block.bytes (List.replicate (authzid_length + authcid_length + passwd_length + 2) none))
        let h3 ← set_init_bytes h2 result p
        let init_bytes ← get_init_bytes_field h3 result
        if init_bytes = Ptr.null then do
          let h4 ← amqpalloc_free h3 result
          some (Ptr.null, h4)
        else do
          let h4 ← memcpy h3 init_bytes 0 sasl_plain_config.authzid authzid_length
          let h5 ← storeBytes h4 init_bytes authzid_length [0]
          let h6 ← memcpy h5 init_bytes (authzid_length + 1) sasl_plain_config.authcid authcid_length
          let h7 ← storeBytes h6 init_bytes (authzid_length + authcid_length + 1) [0]
          let h8 ← memcpy h7 init_bytes (authzid_length + authcid_length + 2)
            sasl_plain_config.passwd passwd_length
          let h9 ← set_init_bytes_length h8 result
            (authzid_length + authcid_length + passwd_length + 2)
          some (Ptr.addr result, h9)

/-- The function `saslplain_destroy` (lines 82-95). -/
def saslplain_destroy (h : Heap) (sasl_mechanism_concrete_handle : Ptr) : Option Heap :=
  match sasl_mechanism_concrete_handle with
  | Ptr.null => some h
  | Ptr.addr sasl_plain_instance => do
    let init_bytes ← get_init_bytes_field h sasl_plain_instance
    let h1 ←
      match init_bytes with
      | Ptr.null => some h
      | Ptr.addr b => amqpalloc_free h b
    amqpalloc_free h1 sasl_plain_instance

/-- The function `saslplain_get_init_bytes` (lines 97-118).  `init_bytes` is
what the output pointer addresses (`none`: a `NULL` pointer); the result is
the returned `int` and the output destination after the call. -/
def saslplain_get_init_bytes (h : Heap) (sasl_mechanism_concrete_handle : Ptr)
    (init_bytes : Option SASL_MECHANISM_BYTES) : Option (Int × Option SASL_MECHANISM_BYTES) :=
  match sasl_mechanism_concrete_handle, init_bytes with
  | Ptr.null, _ => some (104, init_bytes)
  | _, none => some (104, init_bytes)
  | Ptr.addr sasl_plain_instance, some _ => do
    let b ← get_init_bytes_field h sasl_plain_instance
    let n ← get_init_bytes_length_field h sasl_plain_instance
    some (0, some { bytes := b, length := n })

/-- The function `saslplain_get_mechanism_name` (lines 120-136). -/
def saslplain_get_mechanism_name (sasl_mechanism : Ptr) : Option String :=
  match sasl_mechanism with
  | Ptr.null => none
  | Ptr.addr _ => some "PLAIN"

/-- The function `saslplain_challenge` (lines 138-161).  The result is the
returned `int` and the response destination after the call. -/
def saslplain_challenge (concrete_sasl_mechanism : Ptr)
    (challenge_bytes : Option SASL_MECHANISM_BYTES)
    (response_bytes : Option SASL_MECHANISM_BYTES) : Int × Option SASL_MECHANISM_BYTES :=
  let _ := challenge_bytes
  match concrete_sasl_mechanism, response_bytes with
  | Ptr.null, _ => (148, response_bytes)
  | _, none => (148, response_bytes)
  | Ptr.addr _, some _ => (0, some { bytes := Ptr.null, length := 0 })

/-! ## Observations used to state the properties -/

/-- All cells of a buffer prefix, when every one of them is initialised. -/
def allInit : List (Option Nat) → Option (List Nat)
  | [] => some []
  | none :: _ => none
  | some b :: t => (allInit t).map (b :: ·)

/-- The `n` bytes found at the heap pointer `p`. -/
def readBytes (h : Heap) (p : Ptr) (n : Nat) : Option (List Nat) :=
  match p with
  | Ptr.null => none
  | Ptr.addr a =>
    match findBlock h.live a with
    | some (Block.bytes data) => if n ≤ data.length then allInit (data.take n) else none
    | _ => none

/-- What a caller sees through `saslplain_get_init_bytes` on the handle
`handle`: the returned `int`, the reported length, and the bytes found in the
heap at the reported pointer. -/
def observe_init_bytes (h : Heap) (handle : Ptr) : Option (Int × Nat × List Nat) :=
  match saslplain_get_init_bytes h handle (some { bytes := Ptr.null, length := 0 }) with
  | some (r, some out) =>
    match readBytes h out.bytes out.length with
    | some bs => some (r, out.length, bs)
    | none => none
  | _ => none

/-- A sequence of `saslplain_challenge` calls on one handle and one response
destination, one call per listed challenge input: the returned values in
order and the destination after the last call. -/
def challenge_calls (handle : Ptr) :
    List (Option SASL_MECHANISM_BYTES) → Option SASL_MECHANISM_BYTES →
      List Int × Option SASL_MECHANISM_BYTES
  | [], dest => ([], dest)
  | ch :: rest, dest =>
    let r := saslplain_challenge handle ch dest
    let rs := challenge_calls handle rest r.2
    (r.1 :: rs.1, rs.2)

/-- The allocator grants the request that comes after `k` earlier ones. -/
def grants (h : Heap) (k : Nat) : Prop := h.script[k]? ≠ some false

/-- The allocator refuses the request that comes after `k` earlier ones. -/
def refuses (h : Heap) (k : Nat) : Prop := h.script[k]? = some false

instance (h : Heap) (k : Nat) : Decidable (grants h k) :=
  inferInstanceAs (Decidable (h.script[k]? ≠ some false))

instance (h : Heap) (k : Nat) : Decidable (refuses h k) :=
  inferInstanceAs (Decidable (h.script[k]? = some false))

/-- A string argument is usable: a `NULL` pointer, or an array that holds a
terminator. -/
def terminated (p : Option (List Nat)) : Prop := ∀ s, p = some s → 0 ∈ s

/-- The bytes of an ASCII string literal. -/
def ascii (s : String) : List Nat := s.toList.map Char.toNat

/-- The heap with no live allocation and an allocator that grants every
request. -/
def emptyHeap : Heap := { live := [], script := [] }

/-! ## Further observations: buffer size, accessor calls, store record -/

/-- The size of the buffer that the field `init_bytes` of the instance at
`handle` addresses. -/
def buffer_size (h : Heap) (handle : Ptr) : Option Nat :=
  match handle with
  | Ptr.null => none
  | Ptr.addr a =>
    match get_init_bytes_field h a with
    | some (Ptr.addr b) =>
      match findBlock h.live b with
      | some (Block.bytes data) => some data.length
      | _ => none
    | _ => none

/-- A call of one of the three accessors on a handle, with the caller's
arguments. -/
inductive Call where
  | get_init_bytes (init_bytes : Option SASL_MECHANISM_BYTES)
  | get_mechanism_name
  | challenge (challenge_bytes response_bytes : Option SASL_MECHANISM_BYTES)
  deriving DecidableEq, Repr

/-- The heap after one accessor call on `handle`.  None of the three
functions stores through the handle or calls the allocator (their stores go
to the caller's output structure), so a call that is defined leaves the heap
as it found it. -/
def call_accessor (h : Heap) (handle : Ptr) : Call → Option Heap
  | Call.get_init_bytes out =>
    match saslplain_get_init_bytes h handle out with
    | some _ => some h
    | none => none
  | Call.get_mechanism_name =>
    match saslplain_get_mechanism_name handle with
    | _ => some h
  | Call.challenge ch rb =>
    match saslplain_challenge handle ch rb with
    | _ => some h

/-- The heap after a sequence of accessor calls on `handle`. -/
def call_accessors (h : Heap) (handle : Ptr) : List Call → Option Heap
  | [] => some h
  | c :: rest =>
    match call_accessor h handle c with
    | some h1 => call_accessors h1 handle rest
    | none => none

/-- The function `storeBytes`, with the log of the buffer indices written so far. -/
def storeBytesT (st : Heap × List Nat) (p : Ptr) (off : Nat) (bs : List Nat) :
    Option (Heap × List Nat) :=
  match storeBytes st.1 p off bs with
  | some h1 => some (h1, st.2 ++ List.range' off bs.length)
  | none => none

/-- The function `memcpy`, with the log of the buffer indices written so far. -/
def memcpyT (st : Heap × List Nat) (dst : Ptr) (off : Nat) (src : Option (List Nat))
    (n : Nat) : Option (Heap × List Nat) :=
  match memcpySrc src n with
  | none => none
  | some bs => storeBytesT st dst off bs

/-- The function `saslplain_create` (lines 28-80) once more, recording in
order the index of every byte stored into `init_bytes` (lines 68-72).  The
result is the returned handle, the heap after the call and that record. -/
def saslplain_create_traced (h : Heap) (config : Option SASL_PLAIN_CONFIG) :
    Option (Ptr × Heap × List Nat) :=
  match config with
  | none => some (Ptr.null, h, [])
  | some sasl_plain_config =>
    if sasl_plain_config.authcid = none ∨ sasl_plain_config.passwd = none then
      some (Ptr.null, h, [])
    else
      match amqpalloc_malloc h (Block.inst none none) with
      | (Ptr.null, h1) => some (Ptr.null, h1, [])
      | (Ptr.addr result, h1) => do
        let authzid_length ←
          (if sasl_plain_config.authzid = none then some 0 else strlen sasl_plain_config.authcid)
        let authcid_length ← strlen sasl_plain_config.authcid
        let passwd_length ← strlen sasl_plain_config.passwd
        let (p, h2) := amqpalloc_malloc h1
          (Block.bytes (List.replicate (authzid_length + authcid_length + passwd_length + 2) none))
        let h3 ← set_init_bytes h2 result p
        let init_bytes ← get_init_bytes_field h3 result
        if init_bytes = Ptr.null then do
          let h4 ← amqpalloc_free h3 result
          some (Ptr.null, h4, [])
        else do
          let t4 ← memcpyT (h3, []) init_bytes 0 sasl_plain_config.authzid authzid_length
          let t5 ← storeBytesT t4 init_bytes authzid_length [0]
          let t6 ← memcpyT t5 init_bytes (authzid_length + 1) sasl_plain_config.authcid
            authcid_length
          let t7 ← storeBytesT t6 init_bytes (authzid_length + authcid_length + 1) [0]
          let t8 ← memcpyT t7 init_bytes (authzid_length + authcid_length + 2)
            sasl_plain_config.passwd passwd_length
          let h9 ← set_init_bytes_length t8.1 result
            (authzid_length + authcid_length + passwd_length + 2)
          some (Ptr.addr result, h9, t8.2)

/-! ## Lemmas on the memory model -/

theorem strlenArr_append (A t : List Nat) (hA : 0 ∉ A) :
    strlenArr (A ++ 0 :: t) = some A.length := by
  induction A with
  | nil => simp [strlenArr]
  | cons c A ih =>
    have hc : c ≠ 0 := fun e => hA (by simp [e])
    have hA1 : 0 ∉ A := fun m => hA (List.mem_cons_of_mem _ m)
    simp [strlenArr, hc, ih hA1]

theorem memcpySrc_length (src : Option (List Nat)) (n : Nat) (bs : List Nat)
    (hb : memcpySrc src n = some bs) : bs.length = n := by
  unfold memcpySrc at hb
  split at hb
  · simp_all
  · cases src with
    | none => simp at hb
    | some s =>
      simp only at hb
      split at hb
      · simp at hb; subst hb; simp; omega
      · simp at hb

theorem memcpySrc_cstr (A t : List Nat) :
    memcpySrc (some (A ++ 0 :: t)) A.length = some A := by
  unfold memcpySrc
  split
  · rename_i h0; simp [List.length_eq_zero.mp h0]
  · simp

theorem fresh_gt (L : List (Nat × Block)) (e : Nat × Block) (he : e ∈ L) : e.1 < fresh L := by
  induction L with
  | nil => simp at he
  | cons x t ih =>
    obtain ⟨k, b⟩ := x
    simp only [fresh]
    rcases List.mem_cons.mp he with h | h
    · subst h; simp
    · have := ih h; omega

theorem findBlock_fresh (L : List (Nat × Block)) : findBlock L (fresh L) = none := by
  have key : ∀ (M : List (Nat × Block)) (a : Nat), (∀ e ∈ M, e.1 < a) → findBlock M a = none := by
    intro M
    induction M with
    | nil => intro a _; rfl
    | cons x t ih =>
      intro a ha
      obtain ⟨k, b⟩ := x
      have hk : k < a := ha (k, b) (by simp)
      have hne : k ≠ a := by omega
      simp only [findBlock, hne, if_false]
      exact ih a (fun e he => ha e (List.mem_cons_of_mem _ he))
  exact key L (fresh L) (fresh_gt L)

theorem filter_fresh (L : List (Nat × Block)) :
    L.filter (fun e => e.1 ≠ fresh L) = L := by
  apply List.filter_eq_self.mpr
  intro e he
  have := fresh_gt L e he
  simp; omega

theorem malloc_granted (L : List (Nat × Block)) (s : List Bool) (blk : Block)
    (g : s[0]? ≠ some false) :
    amqpalloc_malloc ⟨L, s⟩ blk = (Ptr.addr (fresh L), ⟨(fresh L, blk) :: L, s.tail⟩) := by
  unfold amqpalloc_malloc
  cases s with
  | nil => rfl
  | cons b t => cases b <;> simp_all

theorem malloc_refused (L : List (Nat × Block)) (s : List Bool) (blk : Block)
    (g : s[0]? = some false) :
    amqpalloc_malloc ⟨L, s⟩ blk = (Ptr.null, ⟨L, s.tail⟩) := by
  unfold amqpalloc_malloc
  cases s with
  | nil => simp at g
  | cons b t => cases b <;> simp_all

theorem writeAt_fill (xs bs : List Nat) (m : Nat) :
    writeAt (xs.map some ++ List.replicate (bs.length + m) none) xs.length bs
      = some ((xs ++ bs).map some ++ List.replicate m none) := by
  unfold writeAt
  have h1 : xs.length + bs.length ≤ (xs.map some ++ List.replicate (bs.length + m) (none : Option Nat)).length := by
    simp
  rw [if_pos h1]
  have h2 : (xs.map some ++ List.replicate (bs.length + m) (none : Option Nat)).take xs.length = xs.map some := by
    rw [List.take_append_of_le_length (by simp)]
    simp [List.take_of_length_le]
  have h3 : (xs.map some ++ List.replicate (bs.length + m) (none : Option Nat)).drop (xs.length + bs.length) = List.replicate m none := by
    rw [List.drop_append_eq_append_drop]
    simp
  rw [h2, h3]
  simp

theorem allInit_map (xs : List Nat) : allInit (xs.map some) = some xs := by
  induction xs with
  | nil => rfl
  | cons x t ih => simp [allInit, ih]

theorem storeBytes_step (b : Nat) (rest : List (Nat × Block)) (s : List Bool)
    (xs bs : List Nat) (m off k : Nat) (hoff : off = xs.length) (hk : k = bs.length + m) :
    storeBytes ⟨(b, Block.bytes (xs.map some ++ List.replicate k none)) :: rest, s⟩
        (Ptr.addr b) off bs
      = some ⟨(b, Block.bytes ((xs ++ bs).map some ++ List.replicate m none)) :: rest, s⟩ := by
  subst hoff hk
  simp only [storeBytes, findBlock, setBlock, if_true, writeAt_fill]

theorem create_granted (L : List (Nat × Block)) (s : List Bool) (z : Option (List Nat))
    (A ta P tp zb : List Nat) (hA : 0 ∉ A) (hP : 0 ∉ P)
    (g0 : s[0]? ≠ some false) (g1 : s[1]? ≠ some false)
    (hz : memcpySrc z (if z = none then 0 else A.length) = some zb) :
    saslplain_create ⟨L, s⟩ (some ⟨z, some (A ++ 0 :: ta), some (P ++ 0 :: tp)⟩) =
      some (Ptr.addr (fresh L),
        ⟨(fresh L + 1, Block.bytes ((zb ++ 0 :: (A ++ 0 :: P)).map some)) ::
          (fresh L, Block.inst (some (Ptr.addr (fresh L + 1)))
            (some (zb.length + A.length + P.length + 2))) :: L, s.drop 2⟩) := by
  have hzl := memcpySrc_length _ _ _ hz
  have g1t : s.tail[0]? ≠ some false := by
    cases s with
    | nil => simp
    | cons b t => simpa using g1
  have hfr : fresh ((fresh L, Block.inst none none) :: L) = fresh L + 1 := by
    simp [fresh]
  have hne : ¬ (fresh L + 1 = fresh L) := by omega
  have hazl : (if z = none then some 0 else some A.length) = some zb.length := by
    rw [hzl]
    split <;> rfl
  rw [← hzl] at hz
  have e4 := storeBytes_step (fresh L + 1)
    ((fresh L, Block.inst (some (Ptr.addr (fresh L + 1))) none) :: L) s.tail.tail
    [] zb (A.length + P.length + 2) 0 (zb.length + A.length + P.length + 2) rfl (by omega)
  have e5 := storeBytes_step (fresh L + 1)
    ((fresh L, Block.inst (some (Ptr.addr (fresh L + 1))) none) :: L) s.tail.tail
    ([] ++ zb) [0] (A.length + P.length + 1) zb.length (A.length + P.length + 2)
    (by simp) (by simp; omega)
  have e6 := storeBytes_step (fresh L + 1)
    ((fresh L, Block.inst (some (Ptr.addr (fresh L + 1))) none) :: L) s.tail.tail
    ([] ++ zb ++ [0]) A (P.length + 1) (zb.length + 1) (A.length + P.length + 1)
    (by simp) (by omega)
  have e7 := storeBytes_step (fresh L + 1)
    ((fresh L, Block.inst (some (Ptr.addr (fresh L + 1))) none) :: L) s.tail.tail
    ([] ++ zb ++ [0] ++ A) [0] P.length (zb.length + A.length + 1) (P.length + 1)
    (by simp; omega) (by simp; omega)
  have e8 := storeBytes_step (fresh L + 1)
    ((fresh L, Block.inst (some (Ptr.addr (fresh L + 1))) none) :: L) s.tail.tail
    ([] ++ zb ++ [0] ++ A ++ [0]) P 0 (zb.length + A.length + 2) P.length
    (by simp; omega) (by simp)
  simp only [List.map_nil, List.nil_append] at e4 e5 e6 e7 e8
  unfold saslplain_create
  simp only [reduceCtorEq, or_self, if_false]
  rw [malloc_granted L s _ g0]
  simp only [strlen, strlenArr_append _ _ hA, strlenArr_append _ _ hP, Option.bind_eq_bind,
    hazl, Option.some_bind]
  rw [malloc_granted _ s.tail _ g1t, hfr]
  simp only [set_init_bytes, get_init_bytes_field, findBlock, setBlock, hne, if_false, if_true,
    Option.some_bind, reduceCtorEq, memcpy, hz, memcpySrc_cstr, e4, e5, e6, e7, e8,
    set_init_bytes_length]
  simp
  rcases s with _ | ⟨_, _ | ⟨_, _⟩⟩ <;> simp

theorem observe_created (L : List (Nat × Block)) (s : List Bool) (a n : Nat) (xs : List Nat)
    (hn : n = xs.length) :
    observe_init_bytes
        ⟨(a + 1, Block.bytes (xs.map some)) ::
          (a, Block.inst (some (Ptr.addr (a + 1))) (some n)) :: L, s⟩ (Ptr.addr a)
      = some (0, n, xs) := by
  have hne : ¬ (a + 1 = a) := by omega
  subst hn
  have ht : List.take xs.length (List.map some xs) = List.map some xs :=
    List.take_of_length_le (by simp)
  simp [observe_init_bytes, saslplain_get_init_bytes, get_init_bytes_field,
    get_init_bytes_length_field, findBlock, hne, readBytes, ht, allInit_map]

theorem create_observed (h : Heap) (z : Option (List Nat)) (A ta P tp zb : List Nat)
    (hA : 0 ∉ A) (hP : 0 ∉ P) (g0 : grants h 0) (g1 : grants h 1)
    (hz : memcpySrc z (if z = none then 0 else A.length) = some zb) :
    ∃ h1, saslplain_create h (some ⟨z, some (A ++ 0 :: ta), some (P ++ 0 :: tp)⟩)
        = some (Ptr.addr (fresh h.live), h1) ∧
      observe_init_bytes h1 (Ptr.addr (fresh h.live))
        = some (0, zb.length + A.length + P.length + 2, zb ++ [0] ++ A ++ [0] ++ P) := by
  obtain ⟨L, s⟩ := h
  refine ⟨_, create_granted L s z A ta P tp zb hA hP g0 g1 hz, ?_⟩
  have := observe_created L (s.drop 2) (fresh L) (zb.length + A.length + P.length + 2)
    (zb ++ 0 :: (A ++ 0 :: P)) (by simp; omega)
  simpa using this

theorem strlenArr_terminated (s : List Nat) (hs : 0 ∈ s) : ∃ n, strlenArr s = some n := by
  induction s with
  | nil => simp at hs
  | cons c t ih =>
    by_cases hc : c = 0
    · exact ⟨0, by simp [strlenArr, hc]⟩
    · have ht : 0 ∈ t := by
        rcases List.mem_cons.mp hs with h | h
        · exact absurd h.symm hc
        · exact h
      obtain ⟨n, hn⟩ := ih ht
      exact ⟨n + 1, by simp [strlenArr, hc, hn]⟩

/-! ## The claims -/

/-- C1: with authzid "ab", authcid "a" and passwd "p", `saslplain_create`
succeeds and `saslplain_get_init_bytes` reports 5 bytes, `a\0a\0p`: authzid
was measured with the length of authcid, and the result is not the framing
`ab\0a\0p` of 6 bytes. -/
theorem saslplain_create_authzid_cut_to_authcid_length :
    ∃ h1, saslplain_create emptyHeap
        (some ⟨some (ascii "ab" ++ [0]), some (ascii "a" ++ [0]), some (ascii "p" ++ [0])⟩)
        = some (Ptr.addr 1, h1) ∧
      observe_init_bytes h1 (Ptr.addr 1)
        = some (0, 5, ascii "a" ++ [0] ++ ascii "a" ++ [0] ++ ascii "p") ∧
      observe_init_bytes h1 (Ptr.addr 1)
        ≠ some (0, 6, ascii "ab" ++ [0] ++ ascii "a" ++ [0] ++ ascii "p") :=
  ⟨_, rfl, by decide, by decide⟩

/-- C2: for NUL-free authcid `A` and passwd `P` (either may be empty, and
whatever follows their terminators), with authzid absent and both allocations
granted, `saslplain_create` returns an instance whose init bytes, as reported
by `saslplain_get_init_bytes`, are `[0] ++ A ++ [0] ++ P`, of length
`len A + len P + 2`. -/
theorem saslplain_create_without_authzid (h : Heap) (A ta P tp : List Nat)
    (hA : 0 ∉ A) (hP : 0 ∉ P) (g0 : grants h 0) (g1 : grants h 1) :
    ∃ h1, saslplain_create h (some ⟨none, some (A ++ 0 :: ta), some (P ++ 0 :: tp)⟩)
        = some (Ptr.addr (fresh h.live), h1) ∧
      observe_init_bytes h1 (Ptr.addr (fresh h.live))
        = some (0, A.length + P.length + 2, [0] ++ A ++ [0] ++ P) := by
  have := create_observed h none A ta P tp [] hA hP g0 g1 (by simp [memcpySrc])
  simpa using this

/-- C2, at authcid "bob" and passwd "pw": the 7 bytes `\0bob\0pw`. -/
theorem saslplain_create_without_authzid_witness :
    0 ∉ ascii "bob" ∧ 0 ∉ ascii "pw" ∧ grants emptyHeap 0 ∧ grants emptyHeap 1 ∧
    ∃ h1, saslplain_create emptyHeap
        (some ⟨none, some (ascii "bob" ++ 0 :: []), some (ascii "pw" ++ 0 :: [])⟩)
        = some (Ptr.addr (fresh emptyHeap.live), h1) ∧
      observe_init_bytes h1 (Ptr.addr (fresh emptyHeap.live))
        = some (0, (ascii "bob").length + (ascii "pw").length + 2,
            [0] ++ ascii "bob" ++ [0] ++ ascii "pw") :=
  ⟨by decide, by decide, by decide, by decide,
    saslplain_create_without_authzid emptyHeap (ascii "bob") [] (ascii "pw") []
      (by decide) (by decide) (by decide) (by decide)⟩

/-- C3: `saslplain_create` returns `NULL`, and leaves the heap as it was,
when the configuration is absent, when authcid is absent and when passwd is
absent, whatever the other fields hold and whatever the allocator would
answer. -/
theorem saslplain_create_missing_argument (h : Heap) (z a p : Option (List Nat)) :
    saslplain_create h none = some (Ptr.null, h) ∧
    saslplain_create h (some ⟨z, none, p⟩) = some (Ptr.null, h) ∧
    saslplain_create h (some ⟨z, a, none⟩) = some (Ptr.null, h) := by
  refine ⟨rfl, ?_, ?_⟩ <;> simp [saslplain_create]

/-- C4: with authcid "a" and passwd "p", creating with authzid absent gives
the 4 bytes `\0a\0p`, creating with authzid the empty string gives the 5
bytes `\0\0a\0p`: the two instances differ in init bytes and in length. -/
theorem saslplain_create_empty_authzid_differs :
    (∃ h1, saslplain_create emptyHeap
        (some ⟨none, some (ascii "a" ++ [0]), some (ascii "p" ++ [0])⟩)
        = some (Ptr.addr 1, h1) ∧
      observe_init_bytes h1 (Ptr.addr 1) = some (0, 4, [0, 97, 0, 112])) ∧
    (∃ h2, saslplain_create emptyHeap
        (some ⟨some (ascii "" ++ [0]), some (ascii "a" ++ [0]), some (ascii "p" ++ [0])⟩)
        = some (Ptr.addr 1, h2) ∧
      observe_init_bytes h2 (Ptr.addr 1) = some (0, 5, [0, 0, 97, 0, 112])) :=
  ⟨⟨_, rfl, by decide⟩, ⟨_, rfl, by decide⟩⟩

/-- C5, as stated: with authzid "admin", authcid "alice" and passwd "secret"
no run of `saslplain_create` on the empty heap ends with an instance whose
init bytes are `admin\0alice\0secret` with reported length 19. -/
theorem saslplain_create_admin_alice_secret_not_19 :
    ¬ ∃ r h1, saslplain_create emptyHeap
        (some ⟨some (ascii "admin" ++ [0]), some (ascii "alice" ++ [0]),
          some (ascii "secret" ++ [0])⟩) = some (r, h1) ∧
      observe_init_bytes h1 r
        = some (0, 19, ascii "admin" ++ [0] ++ ascii "alice" ++ [0] ++ ascii "secret") := by
  rintro ⟨r, h1, hc, ho⟩
  have hrun : saslplain_create emptyHeap
      (some ⟨some (ascii "admin" ++ [0]), some (ascii "alice" ++ [0]),
        some (ascii "secret" ++ [0])⟩)
      = some (Ptr.addr 1,
          ⟨[(2, Block.bytes ((ascii "admin" ++ [0] ++ ascii "alice" ++ [0]
                ++ ascii "secret").map some)),
            (1, Block.inst (some (Ptr.addr 2)) (some 18))], []⟩) := rfl
  rw [hrun] at hc
  cases hc
  revert ho
  decide

/-- C5, amended: with authzid "admin", authcid "alice" and passwd "secret"
(whatever follows their terminators) and both allocations granted,
`saslplain_create` returns an instance whose init bytes are
`admin\0alice\0secret` and whose reported length is 18. -/
theorem saslplain_create_admin_alice_secret (h : Heap) (tz ta tp : List Nat)
    (g0 : grants h 0) (g1 : grants h 1) :
    ∃ h1, saslplain_create h
        (some ⟨some (ascii "admin" ++ 0 :: tz), some (ascii "alice" ++ 0 :: ta),
          some (ascii "secret" ++ 0 :: tp)⟩) = some (Ptr.addr (fresh h.live), h1) ∧
      observe_init_bytes h1 (Ptr.addr (fresh h.live))
        = some (0, 18, ascii "admin" ++ [0] ++ ascii "alice" ++ [0] ++ ascii "secret") := by
  have hz : memcpySrc (some (ascii "admin" ++ 0 :: tz))
      (if some (ascii "admin" ++ 0 :: tz) = none then 0 else (ascii "alice").length)
      = some (ascii "admin") := memcpySrc_cstr (ascii "admin") tz
  exact create_observed h _ (ascii "alice") ta (ascii "secret") tp (ascii "admin")
    (by decide) (by decide) g0 g1 hz

/-- C5, amended, on the empty heap with the three string literals. -/
theorem saslplain_create_admin_alice_secret_witness :
    grants emptyHeap 0 ∧ grants emptyHeap 1 ∧
    ∃ h1, saslplain_create emptyHeap
        (some ⟨some (ascii "admin" ++ 0 :: []), some (ascii "alice" ++ 0 :: []),
          some (ascii "secret" ++ 0 :: [])⟩) = some (Ptr.addr (fresh emptyHeap.live), h1) ∧
      observe_init_bytes h1 (Ptr.addr (fresh emptyHeap.live))
        = some (0, 18, ascii "admin" ++ [0] ++ ascii "alice" ++ [0] ++ ascii "secret") :=
  ⟨by decide, by decide,
    saslplain_create_admin_alice_secret emptyHeap [] [] [] (by decide) (by decide)⟩

/-- C6: on a non-`NULL` handle, with any challenge input (absent, empty or
arbitrary) and a present response destination, `saslplain_challenge` returns
0 and leaves the response with no bytes and length 0; any sequence of one or
more such calls returns 0 each time and leaves the same response. -/
theorem saslplain_challenge_succeeds (a : Nat) (ch : Option SASL_MECHANISM_BYTES)
    (chs : List (Option SASL_MECHANISM_BYTES)) (r : SASL_MECHANISM_BYTES) :
    saslplain_challenge (Ptr.addr a) ch (some r) = (0, some ⟨Ptr.null, 0⟩) ∧
    challenge_calls (Ptr.addr a) (ch :: chs) (some r)
      = (List.replicate (chs.length + 1) 0, some ⟨Ptr.null, 0⟩) := by
  have key : ∀ (cs : List (Option SASL_MECHANISM_BYTES)) (d : SASL_MECHANISM_BYTES),
      challenge_calls (Ptr.addr a) cs (some d)
        = (List.replicate cs.length 0, if cs = [] then some d else some ⟨Ptr.null, 0⟩) := by
    intro cs
    induction cs with
    | nil => intro d; rfl
    | cons c t ih =>
      intro d
      simp [challenge_calls, saslplain_challenge, ih, List.replicate_succ]
  refine ⟨rfl, ?_⟩
  rw [key]
  simp

/-- C7: `saslplain_challenge` returns a non-zero value exactly when the
handle or the response destination is absent, and then the response
destination is as it was before the call. -/
theorem saslplain_challenge_fails_iff (hd : Ptr) (ch rb : Option SASL_MECHANISM_BYTES) :
    ((saslplain_challenge hd ch rb).1 ≠ 0 ↔ (hd = Ptr.null ∨ rb = none)) ∧
    ((saslplain_challenge hd ch rb).1 ≠ 0 → (saslplain_challenge hd ch rb).2 = rb) := by
  cases hd <;> cases rb <;> simp [saslplain_challenge]

/-- C8: `saslplain_get_mechanism_name` returns `NULL` exactly when the handle
is `NULL`, and the string "PLAIN" on every other handle. -/
theorem saslplain_get_mechanism_name_spec (hd : Ptr) (a : Nat) :
    (saslplain_get_mechanism_name hd = none ↔ hd = Ptr.null) ∧
    saslplain_get_mechanism_name (Ptr.addr a) = some "PLAIN" := by
  cases hd <;> simp [saslplain_get_mechanism_name]

/-- C9: `saslplain_get_init_bytes` returns a non-zero value on a `NULL`
handle, leaving the output as it was; on the handle of a live instance with
fields `init_bytes = p` and `init_bytes_length = n` and a present output it
returns 0 and sets the output to `p` and `n`. -/
theorem saslplain_get_init_bytes_spec (h : Heap) (a : Nat) (p : Ptr) (n : Nat)
    (o : SASL_MECHANISM_BYTES) (out : Option SASL_MECHANISM_BYTES)
    (hi : findBlock h.live a = some (Block.inst (some p) (some n))) :
    (∃ r, saslplain_get_init_bytes h Ptr.null out = some (r, out) ∧ r ≠ 0) ∧
    saslplain_get_init_bytes h (Ptr.addr a) (some o) = some (0, some ⟨p, n⟩) := by
  refine ⟨⟨104, ?_, by decide⟩, ?_⟩
  · simp [saslplain_get_init_bytes]
  · simp [saslplain_get_init_bytes, get_init_bytes_field, get_init_bytes_length_field, hi]

/-- C9, on a heap holding one instance at address 1 whose buffer of 2 bytes
is at address 2. -/
theorem saslplain_get_init_bytes_spec_witness :
    findBlock (Heap.mk [(2, Block.bytes [some 0, some 0]),
        (1, Block.inst (some (Ptr.addr 2)) (some 2))] []).live 1
      = some (Block.inst (some (Ptr.addr 2)) (some 2)) ∧
    (∃ r, saslplain_get_init_bytes (Heap.mk [(2, Block.bytes [some 0, some 0]),
        (1, Block.inst (some (Ptr.addr 2)) (some 2))] []) Ptr.null none = some (r, none) ∧ r ≠ 0) ∧
    saslplain_get_init_bytes (Heap.mk [(2, Block.bytes [some 0, some 0]),
        (1, Block.inst (some (Ptr.addr 2)) (some 2))] []) (Ptr.addr 1) (some ⟨Ptr.null, 7⟩)
      = some (0, some ⟨Ptr.addr 2, 2⟩) :=
  ⟨by decide, saslplain_get_init_bytes_spec _ 1 (Ptr.addr 2) 2 ⟨Ptr.null, 7⟩ none (by decide)⟩

/-- C10: on a configuration whose authcid and passwd, when present, are
terminated, if the allocator refuses the instance or grants the instance and
refuses the buffer, `saslplain_create` returns `NULL` and the live allocations
after the call are those before it. -/
theorem saslplain_create_allocation_failure (h : Heap) (cfg : Option SASL_PLAIN_CONFIG)
    (hw : ∀ c, cfg = some c → terminated c.authcid ∧ terminated c.passwd)
    (hf : refuses h 0 ∨ (grants h 0 ∧ refuses h 1)) :
    ∃ h1, saslplain_create h cfg = some (Ptr.null, h1) ∧ h1.live = h.live := by
  obtain ⟨L, s⟩ := h
  cases cfg with
  | none => exact ⟨_, rfl, rfl⟩
  | some c =>
    obtain ⟨z, ac, pw⟩ := c
    obtain ⟨hta, htp⟩ := hw _ rfl
    cases ac with
    | none => exact ⟨_, by simp [saslplain_create], rfl⟩
    | some A =>
      cases pw with
      | none => exact ⟨_, by simp [saslplain_create], rfl⟩
      | some P =>
        obtain ⟨na, hna⟩ := strlenArr_terminated A (hta A rfl)
        obtain ⟨np, hnp⟩ := strlenArr_terminated P (htp P rfl)
        rcases hf with r0 | ⟨g0, r1⟩
        · refine ⟨⟨L, s.tail⟩, ?_, rfl⟩
          unfold saslplain_create
          simp only [reduceCtorEq, or_self, if_false]
          rw [malloc_refused L s _ r0]
        · have r1t : s.tail[0]? = some false := by
            cases s with
            | nil => simp [refuses] at r1
            | cons b t => simpa [refuses] using r1
          have hazl : ∃ nz, (if z = none then some 0 else some na) = some nz := by
            split
            · exact ⟨0, rfl⟩
            · exact ⟨na, rfl⟩
          obtain ⟨nz, hnz⟩ := hazl
          refine ⟨⟨L, s.tail.tail⟩, ?_, rfl⟩
          unfold saslplain_create
          simp only [reduceCtorEq, or_self, if_false]
          rw [malloc_granted L s _ g0]
          simp only [strlen, hna, hnp, Option.bind_eq_bind, hnz, Option.some_bind]
          rw [malloc_refused _ s.tail _ r1t]
          simp [set_init_bytes, get_init_bytes_field, findBlock, setBlock, amqpalloc_free,
            List.filter_cons, filter_fresh]
          intro k b hm hk
          have hlt := fresh_gt L (k, b) hm
          simp only at hlt
          omega

/-- C10, on the empty heap: authcid "a", passwd "p", instance granted and
buffer refused. -/
theorem saslplain_create_allocation_failure_witness :
    (∀ c, some (SASL_PLAIN_CONFIG.mk none (some [97, 0]) (some [112, 0])) = some c →
      terminated c.authcid ∧ terminated c.passwd) ∧
    (refuses (Heap.mk [] [true, false]) 0 ∨
      (grants (Heap.mk [] [true, false]) 0 ∧ refuses (Heap.mk [] [true, false]) 1)) ∧
    ∃ h1, saslplain_create (Heap.mk [] [true, false])
        (some (SASL_PLAIN_CONFIG.mk none (some [97, 0]) (some [112, 0]))) = some (Ptr.null, h1) ∧
      h1.live = (Heap.mk [] [true, false]).live :=
  have hw : ∀ c, some (SASL_PLAIN_CONFIG.mk none (some [97, 0]) (some [112, 0])) = some c →
      terminated c.authcid ∧ terminated c.passwd := by
    intro c hc
    cases hc
    constructor <;> intro s hs <;> cases hs <;> decide
  ⟨hw, Or.inr ⟨by decide, by decide⟩,
    saslplain_create_allocation_failure _ _ hw (Or.inr ⟨by decide, by decide⟩)⟩

/-! ## Lemmas on successful runs of `saslplain_create` -/

theorem strlenArr_some (s : List Nat) (n : Nat) (hs : strlenArr s = some n) :
    ∃ A t, s = A ++ 0 :: t ∧ 0 ∉ A ∧ A.length = n := by
  induction s generalizing n with
  | nil => simp [strlenArr] at hs
  | cons c u ih =>
    by_cases hc : c = 0
    · subst hc
      simp [strlenArr] at hs
      exact ⟨[], u, by simp, by simp, by simpa using hs⟩
    · simp only [strlenArr, hc, if_false, Option.map_eq_some'] at hs
      obtain ⟨m, hm, hmn⟩ := hs
      obtain ⟨A, t, hu, hA, hl⟩ := ih m hm
      refine ⟨c :: A, t, by simp [hu], ?_, by simp [hl, hmn]⟩
      intro hmem
      rcases List.mem_cons.mp hmem with h | h
      · exact hc h.symm
      · exact hA h

theorem filter_above (L : List (Nat × Block)) (k : Nat) (hk : fresh L ≤ k) :
    L.filter (fun e => e.1 ≠ k) = L := by
  apply List.filter_eq_self.mpr
  intro e he
  have := fresh_gt L e he
  simp; omega

theorem create_success (h : Heap) (cfg : Option SASL_PLAIN_CONFIG) (a : Nat) (h1 : Heap)
    (hc : saslplain_create h cfg = some (Ptr.addr a, h1)) :
    ∃ z A ta P tp zb, cfg = some ⟨z, some (A ++ 0 :: ta), some (P ++ 0 :: tp)⟩ ∧
      0 ∉ A ∧ 0 ∉ P ∧ grants h 0 ∧ grants h 1 ∧
      memcpySrc z (if z = none then 0 else A.length) = some zb := by
  obtain ⟨L, s⟩ := h
  cases cfg with
  | none => simp [saslplain_create] at hc
  | some c =>
    obtain ⟨z, ac, pw⟩ := c
    cases ac with
    | none => simp [saslplain_create] at hc
    | some Aarr =>
      cases pw with
      | none => simp [saslplain_create] at hc
      | some Parr =>
        by_cases r0 : s[0]? = some false
        · unfold saslplain_create at hc
          simp only [reduceCtorEq, or_self, if_false] at hc
          rw [malloc_refused L s _ r0] at hc
          simp at hc
        · unfold saslplain_create at hc
          simp only [reduceCtorEq, or_self, if_false] at hc
          rw [malloc_granted L s _ r0] at hc
          cases hsa : strlenArr Aarr with
          | none => simp [strlen, hsa] at hc
          | some na =>
            cases hsp : strlenArr Parr with
            | none => simp [strlen, hsa, hsp] at hc
            | some np =>
              obtain ⟨A, ta, hAe, hA, hAl⟩ := strlenArr_some _ _ hsa
              obtain ⟨P, tp, hPe, hP, hPl⟩ := strlenArr_some _ _ hsp
              subst hAe hPe hAl hPl
              have hazl : (if z = none then some 0 else some A.length)
                  = some (if z = none then 0 else A.length) := by
                split <;> rfl
              simp only [strlen, hsa, hsp, Option.bind_eq_bind, hazl, Option.some_bind] at hc
              have hfr : fresh ((fresh L, Block.inst none none) :: L) = fresh L + 1 := by
                simp [fresh]
              have hne : ¬ (fresh L + 1 = fresh L) := by omega
              by_cases r1 : s[1]? = some false
              · have r1t : s.tail[0]? = some false := by
                  cases s with
                  | nil => simp at r1
                  | cons b t => simpa using r1
                rw [malloc_refused _ s.tail _ r1t] at hc
                simp [set_init_bytes, get_init_bytes_field, findBlock, setBlock, amqpalloc_free]
                  at hc
              · have g1t : s.tail[0]? ≠ some false := by
                  cases s with
                  | nil => simp
                  | cons b t => simpa using r1
                rw [malloc_granted _ s.tail _ g1t, hfr] at hc
                cases hm : memcpySrc z (if z = none then 0 else A.length) with
                | none =>
                  simp [set_init_bytes, get_init_bytes_field, findBlock, setBlock, hne, memcpy,
                    hm] at hc
                | some zb =>
                  exact ⟨z, A, ta, P, tp, zb, rfl, hA, hP, r0, r1, hm⟩

theorem storeBytesT_eq (st : Heap × List Nat) (p : Ptr) (off : Nat) (bs : List Nat) :
    storeBytesT st p off bs
      = (storeBytes st.1 p off bs).map (fun h1 => (h1, st.2 ++ List.range' off bs.length)) := by
  unfold storeBytesT
  cases storeBytes st.1 p off bs <;> rfl

theorem memcpyT_eq (st : Heap × List Nat) (p : Ptr) (off : Nat) (src : Option (List Nat))
    (n : Nat) :
    memcpyT st p off src n
      = (memcpy st.1 p off src n).map (fun h1 => (h1, st.2 ++ List.range' off n)) := by
  unfold memcpyT memcpy
  cases hm : memcpySrc src n with
  | none => rfl
  | some bs =>
    simp only [storeBytesT_eq, memcpySrc_length _ _ _ hm]

theorem traced_erase (h : Heap) (cfg : Option SASL_PLAIN_CONFIG) :
    (saslplain_create_traced h cfg).map (fun r => (r.1, r.2.1)) = saslplain_create h cfg := by
  unfold saslplain_create_traced saslplain_create
  cases cfg with
  | none => rfl
  | some c =>
    simp only
    split
    · rfl
    · split
      · rfl
      · simp only [Option.bind_eq_bind, storeBytesT_eq, memcpyT_eq]
        simp only [Option.map_bind, Option.bind_map, apply_ite (Option.map _), Function.comp_def,
          Option.map_some']

theorem tiles_range (n1 n2 n3 : Nat) :
    [] ++ List.range' 0 n1 ++ List.range' n1 1 ++ List.range' (n1 + 1) n2
        ++ List.range' (n1 + n2 + 1) 1 ++ List.range' (n1 + n2 + 2) n3
      = List.range (n1 + n2 + n3 + 2) := by
  rw [List.range_eq_range']
  have e1 : List.range' 0 n1 ++ List.range' n1 1 = List.range' 0 (n1 + 1) := by
    have := List.range'_append_1 0 n1 1
    simpa [Nat.add_comm] using this
  have e2 : List.range' 0 (n1 + 1) ++ List.range' (n1 + 1) n2 = List.range' 0 (n1 + n2 + 1) := by
    have := List.range'_append_1 0 (n1 + 1) n2
    rw [Nat.zero_add] at this
    rw [this]; congr 1; omega
  have e3 : List.range' 0 (n1 + n2 + 1) ++ List.range' (n1 + n2 + 1) 1
      = List.range' 0 (n1 + n2 + 2) := by
    have := List.range'_append_1 0 (n1 + n2 + 1) 1
    rw [Nat.zero_add] at this
    rw [this]; congr 1; omega
  have e4 : List.range' 0 (n1 + n2 + 2) ++ List.range' (n1 + n2 + 2) n3
      = List.range' 0 (n1 + n2 + n3 + 2) := by
    have := List.range'_append_1 0 (n1 + n2 + 2) n3
    rw [Nat.zero_add] at this
    rw [this]; congr 1; omega
  rw [List.nil_append, e1, e2, e3, e4]

theorem traced_granted (L : List (Nat × Block)) (s : List Bool) (z : Option (List Nat))
    (A ta P tp zb : List Nat) (hA : 0 ∉ A) (hP : 0 ∉ P)
    (g0 : s[0]? ≠ some false) (g1 : s[1]? ≠ some false)
    (hz : memcpySrc z (if z = none then 0 else A.length) = some zb) :
    saslplain_create_traced ⟨L, s⟩ (some ⟨z, some (A ++ 0 :: ta), some (P ++ 0 :: tp)⟩) =
      some (Ptr.addr (fresh L),
        ⟨(fresh L + 1, Block.bytes ((zb ++ 0 :: (A ++ 0 :: P)).map some)) ::
          (fresh L, Block.inst (some (Ptr.addr (fresh L + 1)))
            (some (zb.length + A.length + P.length + 2))) :: L, s.drop 2⟩,
        List.range (zb.length + A.length + P.length + 2)) := by
  have hzl := memcpySrc_length _ _ _ hz
  have g1t : s.tail[0]? ≠ some false := by
    cases s with
    | nil => simp
    | cons b t => simpa using g1
  have hfr : fresh ((fresh L, Block.inst none none) :: L) = fresh L + 1 := by
    simp [fresh]
  have hne : ¬ (fresh L + 1 = fresh L) := by omega
  have hazl : (if z = none then some 0 else some A.length) = some zb.length := by
    rw [hzl]
    split <;> rfl
  rw [← hzl] at hz
  have e4 := storeBytes_step (fresh L + 1)
    ((fresh L, Block.inst (some (Ptr.addr (fresh L + 1))) none) :: L) s.tail.tail
    [] zb (A.length + P.length + 2) 0 (zb.length + A.length + P.length + 2) rfl (by omega)
  have e5 := storeBytes_step (fresh L + 1)
    ((fresh L, Block.inst (some (Ptr.addr (fresh L + 1))) none) :: L) s.tail.tail
    ([] ++ zb) [0] (A.length + P.length + 1) zb.length (A.length + P.length + 2)
    (by simp) (by simp; omega)
  have e6 := storeBytes_step (fresh L + 1)
    ((fresh L, Block.inst (some (Ptr.addr (fresh L + 1))) none) :: L) s.tail.tail
    ([] ++ zb ++ [0]) A (P.length + 1) (zb.length + 1) (A.length + P.length + 1)
    (by simp) (by omega)
  have e7 := storeBytes_step (fresh L + 1)
    ((fresh L, Block.inst (some (Ptr.addr (fresh L + 1))) none) :: L) s.tail.tail
    ([] ++ zb ++ [0] ++ A) [0] P.length (zb.length + A.length + 1) (P.length + 1)
    (by simp; omega) (by simp; omega)
  have e8 := storeBytes_step (fresh L + 1)
    ((fresh L, Block.inst (some (Ptr.addr (fresh L + 1))) none) :: L) s.tail.tail
    ([] ++ zb ++ [0] ++ A ++ [0]) P 0 (zb.length + A.length + 2) P.length
    (by simp; omega) (by simp)
  simp only [List.map_nil, List.nil_append] at e4 e5 e6 e7 e8
  have ht := tiles_range zb.length A.length P.length
  unfold saslplain_create_traced
  simp only [reduceCtorEq, or_self, if_false]
  rw [malloc_granted L s _ g0]
  simp only [strlen, strlenArr_append _ _ hA, strlenArr_append _ _ hP, Option.bind_eq_bind,
    hazl, Option.some_bind]
  rw [malloc_granted _ s.tail _ g1t, hfr]
  simp only [set_init_bytes, get_init_bytes_field, findBlock, setBlock, hne, if_false, if_true,
    Option.some_bind, reduceCtorEq, memcpyT, storeBytesT, hz, memcpySrc_cstr, e4, e5, e6, e7, e8,
    set_init_bytes_length, List.length_singleton, ht]
  simp
  rcases s with _ | ⟨_, _ | ⟨_, _⟩⟩ <;> simp

theorem findBlock_above (L : List (Nat × Block)) (k : Nat) (hk : fresh L ≤ k) :
    findBlock L k = none := by
  induction L with
  | nil => rfl
  | cons x t ih =>
    obtain ⟨j, b⟩ := x
    simp only [fresh] at hk
    have hne : j ≠ k := by omega
    simp only [findBlock, hne, if_false]
    exact ih (by omega)

theorem cstr_inj (A B t u : List Nat) (hA : 0 ∉ A) (hB : 0 ∉ B)
    (he : A ++ 0 :: t = B ++ 0 :: u) : A = B ∧ t = u := by
  induction A generalizing B with
  | nil =>
    cases B with
    | nil => simpa using he
    | cons b B =>
      simp at he
      exact absurd he.1.symm (fun e => hB (by simp [e]))
  | cons a A ih =>
    cases B with
    | nil =>
      simp at he
      exact absurd he.1 (fun e => hA (by simp [e]))
    | cons b B =>
      simp only [List.cons_append, List.cons.injEq] at he
      have hA1 : 0 ∉ A := fun m => hA (List.mem_cons_of_mem _ m)
      have hB1 : 0 ∉ B := fun m => hB (List.mem_cons_of_mem _ m)
      obtain ⟨e1, e2⟩ := ih B hA1 hB1 he.2
      exact ⟨by rw [he.1, e1], e2⟩

theorem create_shape (h : Heap) (cfg : Option SASL_PLAIN_CONFIG) (a : Nat) (h1 : Heap)
    (hc : saslplain_create h cfg = some (Ptr.addr a, h1)) :
    ∃ z A ta P tp zb, cfg = some ⟨z, some (A ++ 0 :: ta), some (P ++ 0 :: tp)⟩ ∧
      0 ∉ A ∧ 0 ∉ P ∧ grants h 0 ∧ grants h 1 ∧
      memcpySrc z (if z = none then 0 else A.length) = some zb ∧
      a = fresh h.live ∧
      h1 = ⟨(fresh h.live + 1, Block.bytes ((zb ++ 0 :: (A ++ 0 :: P)).map some)) ::
          (fresh h.live, Block.inst (some (Ptr.addr (fresh h.live + 1)))
            (some (zb.length + A.length + P.length + 2))) :: h.live, h.script.drop 2⟩ := by
  obtain ⟨z, A, ta, P, tp, zb, hcfg, hA, hP, g0, g1, hz⟩ := create_success h cfg a h1 hc
  obtain ⟨L, s⟩ := h
  subst hcfg
  rw [create_granted L s z A ta P tp zb hA hP g0 g1 hz] at hc
  simp only [Option.some.injEq, Prod.mk.injEq, Ptr.addr.injEq] at hc
  exact ⟨z, A, ta, P, tp, zb, rfl, hA, hP, g0, g1, hz, hc.1.symm, hc.2.symm⟩

theorem buffer_size_created (L : List (Nat × Block)) (s : List Bool) (a n : Nat)
    (xs : List Nat) :
    buffer_size
        ⟨(a + 1, Block.bytes (xs.map some)) ::
          (a, Block.inst (some (Ptr.addr (a + 1))) (some n)) :: L, s⟩ (Ptr.addr a)
      = some xs.length := by
  have hne : ¬ (a + 1 = a) := by omega
  simp [buffer_size, get_init_bytes_field, findBlock, hne]

theorem length_field_created (L : List (Nat × Block)) (s : List Bool) (a n : Nat)
    (blk : Block) (p : Ptr) :
    get_init_bytes_length_field
        ⟨(a + 1, blk) :: (a, Block.inst (some p) (some n)) :: L, s⟩ a = some n := by
  have hne : ¬ (a + 1 = a) := by omega
  simp [get_init_bytes_length_field, findBlock, hne]

theorem destroy_created (L : List (Nat × Block)) (s : List Bool) (n : Nat)
    (data : List (Option Nat)) :
    saslplain_destroy
        ⟨(fresh L + 1, Block.bytes data) ::
          (fresh L, Block.inst (some (Ptr.addr (fresh L + 1))) (some n)) :: L, s⟩
        (Ptr.addr (fresh L))
      = some ⟨L, s⟩ := by
  have hne : ¬ (fresh L + 1 = fresh L) := by omega
  have hne2 : ¬ (fresh L = fresh L + 1) := by omega
  have f1 := filter_above L (fresh L + 1) (by omega)
  have f2 := filter_above L (fresh L) (by omega)
  simp only [ne_eq, decide_not] at f1 f2
  simp [saslplain_destroy, get_init_bytes_field, findBlock, hne, hne2, amqpalloc_free,
    List.filter_cons, f1, f2]

theorem call_accessors_live (h : Heap) (a : Nat) (p : Ptr) (n : Nat) (calls : List Call)
    (hi : findBlock h.live a = some (Block.inst (some p) (some n))) :
    call_accessors h (Ptr.addr a) calls = some h := by
  induction calls with
  | nil => rfl
  | cons c rest ih =>
    have hstep : call_accessor h (Ptr.addr a) c = some h := by
      cases c with
      | get_init_bytes out =>
        cases out <;>
          simp [call_accessor, saslplain_get_init_bytes, get_init_bytes_field,
            get_init_bytes_length_field, hi]
      | get_mechanism_name => rfl
      | challenge ch rb => rfl
    simp [call_accessors, hstep, ih]

/-! ## The claims, continued -/

/-- C11: with authzid "ab", authcid "a" and passwd "p", `saslplain_create`
succeeds with a buffer of 5 bytes and a stored `init_bytes_length` of 5,
while authzid_len + authcid_len + passwd_len + 2 is 6 when authzid is
measured by its own length. -/
theorem saslplain_create_buffer_size_from_authcid_length :
    ∃ h1, saslplain_create emptyHeap
        (some ⟨some (ascii "ab" ++ [0]), some (ascii "a" ++ [0]), some (ascii "p" ++ [0])⟩)
        = some (Ptr.addr 1, h1) ∧
      buffer_size h1 (Ptr.addr 1) = some 5 ∧
      get_init_bytes_length_field h1 1 = some 5 ∧
      (ascii "ab").length + (ascii "a").length + (ascii "p").length + 2 = 6 :=
  ⟨_, rfl, by decide, by decide, by decide⟩

/-- C12: with authzid "a", authcid "bc" and passwd "p", `saslplain_create`
succeeds and the init bytes are the 7 bytes `a\0\0bc\0p`: they hold three
0x00 bytes, the terminator of authzid having been copied as content. -/
theorem saslplain_create_copies_authzid_terminator :
    ∃ h1, saslplain_create emptyHeap
        (some ⟨some (ascii "a" ++ [0]), some (ascii "bc" ++ [0]), some (ascii "p" ++ [0])⟩)
        = some (Ptr.addr 1, h1) ∧
      observe_init_bytes h1 (Ptr.addr 1) = some (0, 7, [97, 0, 0, 98, 99, 0, 112]) ∧
      List.count 0 [97, 0, 0, 98, 99, 0, 112] = 3 :=
  ⟨_, rfl, by decide, by decide⟩

/-- C13: on the instance returned by a successful `saslplain_create`, any
sequence of calls of `saslplain_get_init_bytes`, `saslplain_get_mechanism_name`
and `saslplain_challenge` is defined and leaves the heap as it was, so
`saslplain_get_init_bytes` reports after the sequence the bytes and the
length it reports right after the creation. -/
theorem accessors_preserve_init_bytes (h : Heap) (cfg : Option SASL_PLAIN_CONFIG) (a : Nat)
    (h1 : Heap) (calls : List Call)
    (hc : saslplain_create h cfg = some (Ptr.addr a, h1)) :
    ∃ n bs, observe_init_bytes h1 (Ptr.addr a) = some (0, n, bs) ∧
      ∃ h2, call_accessors h1 (Ptr.addr a) calls = some h2 ∧ h2.live = h1.live ∧
        observe_init_bytes h2 (Ptr.addr a) = some (0, n, bs) := by
  obtain ⟨z, A, ta, P, tp, zb, _, _, _, _, _, _, ha, hh⟩ := create_shape h cfg a h1 hc
  subst ha hh
  have ho := observe_created h.live (h.script.drop 2) (fresh h.live)
    (zb.length + A.length + P.length + 2) (zb ++ 0 :: (A ++ 0 :: P)) (by simp; omega)
  have hne : ¬ (fresh h.live + 1 = fresh h.live) := by omega
  refine ⟨_, _, ho, _, call_accessors_live _ _ (Ptr.addr (fresh h.live + 1))
    (zb.length + A.length + P.length + 2) calls ?_, rfl, ho⟩
  simp [findBlock, hne]

/-- C13, on the instance created on the empty heap from authcid "bob" and
passwd "pw", with one call of each accessor. -/
theorem accessors_preserve_init_bytes_witness :
    saslplain_create emptyHeap (some ⟨none, some (ascii "bob" ++ [0]), some (ascii "pw" ++ [0])⟩)
      = some (Ptr.addr 1,
          ⟨[(2, Block.bytes (([0] ++ ascii "bob" ++ [0] ++ ascii "pw").map some)),
            (1, Block.inst (some (Ptr.addr 2)) (some 7))], []⟩) ∧
    ∃ n bs, observe_init_bytes
        ⟨[(2, Block.bytes (([0] ++ ascii "bob" ++ [0] ++ ascii "pw").map some)),
          (1, Block.inst (some (Ptr.addr 2)) (some 7))], []⟩ (Ptr.addr 1) = some (0, n, bs) ∧
      ∃ h2, call_accessors
          ⟨[(2, Block.bytes (([0] ++ ascii "bob" ++ [0] ++ ascii "pw").map some)),
            (1, Block.inst (some (Ptr.addr 2)) (some 7))], []⟩ (Ptr.addr 1)
          [Call.get_init_bytes (some ⟨Ptr.null, 0⟩), Call.get_mechanism_name,
            Call.challenge none (some ⟨Ptr.null, 9⟩)] = some h2 ∧
        h2.live = (Heap.mk [(2, Block.bytes (([0] ++ ascii "bob" ++ [0] ++ ascii "pw").map some)),
            (1, Block.inst (some (Ptr.addr 2)) (some 7))] []).live ∧
        observe_init_bytes h2 (Ptr.addr 1) = some (0, n, bs) :=
  have hrun : saslplain_create emptyHeap
      (some ⟨none, some (ascii "bob" ++ [0]), some (ascii "pw" ++ [0])⟩)
      = some (Ptr.addr 1,
          ⟨[(2, Block.bytes (([0] ++ ascii "bob" ++ [0] ++ ascii "pw").map some)),
            (1, Block.inst (some (Ptr.addr 2)) (some 7))], []⟩) := rfl
  ⟨hrun, accessors_preserve_init_bytes emptyHeap _ 1 _ _ hrun⟩

/-- C14: `saslplain_destroy` on a `NULL` handle leaves the heap, allocator
included, as it was; on the instance returned by a successful
`saslplain_create` it is defined (no block is released twice), releases the
buffer and the instance block, and the live allocations are again those
before the creation. -/
theorem saslplain_destroy_releases (h : Heap) (cfg : Option SASL_PLAIN_CONFIG) (a : Nat)
    (h1 : Heap) (hc : saslplain_create h cfg = some (Ptr.addr a, h1)) :
    saslplain_destroy h Ptr.null = some h ∧
    ∃ b h2, get_init_bytes_field h1 a = some (Ptr.addr b) ∧
      findBlock h1.live a ≠ none ∧ findBlock h1.live b ≠ none ∧
      saslplain_destroy h1 (Ptr.addr a) = some h2 ∧
      findBlock h2.live a = none ∧ findBlock h2.live b = none ∧
      h2.live = h.live := by
  obtain ⟨z, A, ta, P, tp, zb, _, _, _, _, _, _, ha, hh⟩ := create_shape h cfg a h1 hc
  subst ha hh
  have hne : ¬ (fresh h.live + 1 = fresh h.live) := by omega
  refine ⟨rfl, fresh h.live + 1, ⟨h.live, h.script.drop 2⟩, ?_, ?_, ?_,
    destroy_created h.live _ _ _, findBlock_above h.live (fresh h.live) (Nat.le_refl _),
    findBlock_above h.live (fresh h.live + 1) (by omega), rfl⟩
  · simp [get_init_bytes_field, findBlock, hne]
  · simp [findBlock, hne]
  · simp [findBlock]

/-- C14, on the instance created on the empty heap from authcid "bob" and
passwd "pw". -/
theorem saslplain_destroy_releases_witness :
    saslplain_create emptyHeap (some ⟨none, some (ascii "bob" ++ [0]), some (ascii "pw" ++ [0])⟩)
      = some (Ptr.addr 1,
          ⟨[(2, Block.bytes (([0] ++ ascii "bob" ++ [0] ++ ascii "pw").map some)),
            (1, Block.inst (some (Ptr.addr 2)) (some 7))], []⟩) ∧
    saslplain_destroy emptyHeap Ptr.null = some emptyHeap ∧
    ∃ b h2, get_init_bytes_field
        ⟨[(2, Block.bytes (([0] ++ ascii "bob" ++ [0] ++ ascii "pw").map some)),
          (1, Block.inst (some (Ptr.addr 2)) (some 7))], []⟩ 1 = some (Ptr.addr b) ∧
      findBlock (Heap.mk [(2, Block.bytes (([0] ++ ascii "bob" ++ [0] ++ ascii "pw").map some)),
          (1, Block.inst (some (Ptr.addr 2)) (some 7))] []).live 1 ≠ none ∧
      findBlock (Heap.mk [(2, Block.bytes (([0] ++ ascii "bob" ++ [0] ++ ascii "pw").map some)),
          (1, Block.inst (some (Ptr.addr 2)) (some 7))] []).live b ≠ none ∧
      saslplain_destroy
        ⟨[(2, Block.bytes (([0] ++ ascii "bob" ++ [0] ++ ascii "pw").map some)),
          (1, Block.inst (some (Ptr.addr 2)) (some 7))], []⟩ (Ptr.addr 1) = some h2 ∧
      findBlock h2.live 1 = none ∧ findBlock h2.live b = none ∧
      h2.live = emptyHeap.live :=
  have hrun : saslplain_create emptyHeap
      (some ⟨none, some (ascii "bob" ++ [0]), some (ascii "pw" ++ [0])⟩)
      = some (Ptr.addr 1,
          ⟨[(2, Block.bytes (([0] ++ ascii "bob" ++ [0] ++ ascii "pw").map some)),
            (1, Block.inst (some (Ptr.addr 2)) (some 7))], []⟩) := rfl
  ⟨hrun, saslplain_destroy_releases emptyHeap _ 1 _ hrun⟩

/-- C15: for a present NUL-free authzid `Z` (so `strlen(authzid) = len Z`)
and NUL-free authcid `A` and passwd `P` with `len Z ≠ len A`, every instance `saslplain_create` returns
reports the length `2 * len A + len P + 2`, which is not
`len Z + len A + len P + 2`, and bytes other than `Z ++ [0] ++ A ++ [0] ++ P`;
and an instance is returned whenever both allocations are granted and the
`len A` bytes read at authzid lie inside its array. -/
theorem saslplain_create_measures_authzid_by_authcid (h : Heap)
    (Z tz A ta P tp : List Nat) (hZ : 0 ∉ Z) (hA : 0 ∉ A) (hP : 0 ∉ P)
    (hne : Z.length ≠ A.length) :
    strlen (some (Z ++ 0 :: tz)) = some Z.length ∧
    (∀ a h1, saslplain_create h
        (some ⟨some (Z ++ 0 :: tz), some (A ++ 0 :: ta), some (P ++ 0 :: tp)⟩)
        = some (Ptr.addr a, h1) →
      2 * A.length + P.length + 2 ≠ Z.length + A.length + P.length + 2 ∧
      ∃ bs, observe_init_bytes h1 (Ptr.addr a) = some (0, 2 * A.length + P.length + 2, bs) ∧
        bs ≠ Z ++ [0] ++ A ++ [0] ++ P) ∧
    (grants h 0 → grants h 1 → A.length ≤ (Z ++ 0 :: tz).length →
      ∃ a h1, saslplain_create h
        (some ⟨some (Z ++ 0 :: tz), some (A ++ 0 :: ta), some (P ++ 0 :: tp)⟩)
        = some (Ptr.addr a, h1)) := by
  refine ⟨strlenArr_append Z tz hZ, ?_, ?_⟩
  · intro a h1 hc
    obtain ⟨z, A1, ta1, P1, tp1, zb, hcfg, hA1, hP1, g0, g1, hz, ha, hh⟩ :=
      create_shape h _ a h1 hc
    simp only [Option.some.injEq, SASL_PLAIN_CONFIG.mk.injEq] at hcfg
    obtain ⟨hze, hAe, hPe⟩ := hcfg
    obtain ⟨eA, _⟩ := cstr_inj A A1 ta ta1 hA hA1 hAe
    obtain ⟨eP, _⟩ := cstr_inj P P1 tp tp1 hP hP1 hPe
    subst eA eP hze
    have hzl := memcpySrc_length _ _ _ hz
    simp only [reduceCtorEq, if_false] at hzl
    subst ha hh
    have ho := observe_created h.live (h.script.drop 2) (fresh h.live)
      (zb.length + A.length + P.length + 2) (zb ++ 0 :: (A ++ 0 :: P)) (by simp; omega)
    refine ⟨by omega, zb ++ 0 :: (A ++ 0 :: P), ?_, ?_⟩
    · rw [ho, hzl]
      congr 3
      omega
    · intro he
      have hl := congrArg List.length he
      simp at hl
      omega
  · intro g0 g1 hle
    have hz : memcpySrc (some (Z ++ 0 :: tz))
        (if some (Z ++ 0 :: tz) = none then 0 else A.length)
        = some ((Z ++ 0 :: tz).take A.length) := by
      simp only [reduceCtorEq, if_false, memcpySrc, hle, if_true]
      split
      · rename_i h0; simp [h0]
      · rfl
    obtain ⟨h1, hc, _⟩ := create_observed h _ A ta P tp _ hA hP g0 g1 hz
    exact ⟨_, h1, hc⟩

/-- C15, on the empty heap with authzid "ab", authcid "a" and passwd "p". -/
theorem saslplain_create_measures_authzid_by_authcid_witness :
    0 ∉ ascii "ab" ∧ 0 ∉ ascii "a" ∧ 0 ∉ ascii "p" ∧
    (ascii "ab").length ≠ (ascii "a").length ∧
    strlen (some (ascii "ab" ++ 0 :: [])) = some (ascii "ab").length ∧
    (∀ a h1, saslplain_create emptyHeap
        (some ⟨some (ascii "ab" ++ 0 :: []), some (ascii "a" ++ 0 :: []),
          some (ascii "p" ++ 0 :: [])⟩) = some (Ptr.addr a, h1) →
      2 * (ascii "a").length + (ascii "p").length + 2
        ≠ (ascii "ab").length + (ascii "a").length + (ascii "p").length + 2 ∧
      ∃ bs, observe_init_bytes h1 (Ptr.addr a)
          = some (0, 2 * (ascii "a").length + (ascii "p").length + 2, bs) ∧
        bs ≠ ascii "ab" ++ [0] ++ ascii "a" ++ [0] ++ ascii "p") ∧
    (grants emptyHeap 0 → grants emptyHeap 1 →
      (ascii "a").length ≤ (ascii "ab" ++ 0 :: []).length →
      ∃ a h1, saslplain_create emptyHeap
        (some ⟨some (ascii "ab" ++ 0 :: []), some (ascii "a" ++ 0 :: []),
          some (ascii "p" ++ 0 :: [])⟩) = some (Ptr.addr a, h1)) :=
  ⟨by decide, by decide, by decide, by decide,
    saslplain_create_measures_authzid_by_authcid emptyHeap (ascii "ab") [] (ascii "a") []
      (ascii "p") [] (by decide) (by decide) (by decide) (by decide)⟩

/-- C16: for a present NUL-free authzid `Z` (so `strlen(authzid) = len Z`)
and NUL-free authcid `A` and passwd `P` with `len A ≤ len Z`, and both
allocations granted,
`saslplain_create` returns an instance whose init bytes are
`Z.take (len A) ++ [0] ++ A ++ [0] ++ P`; these are the framing
`Z ++ [0] ++ A ++ [0] ++ P` exactly when `len Z = len A`. -/
theorem saslplain_create_truncates_authzid (h : Heap) (Z tz A ta P tp : List Nat)
    (hZ : 0 ∉ Z) (hA : 0 ∉ A) (hP : 0 ∉ P) (hle : A.length ≤ Z.length)
    (g0 : grants h 0) (g1 : grants h 1) :
    strlen (some (Z ++ 0 :: tz)) = some Z.length ∧
    ∃ h1, saslplain_create h
        (some ⟨some (Z ++ 0 :: tz), some (A ++ 0 :: ta), some (P ++ 0 :: tp)⟩)
        = some (Ptr.addr (fresh h.live), h1) ∧
      observe_init_bytes h1 (Ptr.addr (fresh h.live))
        = some (0, 2 * A.length + P.length + 2, Z.take A.length ++ [0] ++ A ++ [0] ++ P) ∧
      (Z.take A.length ++ [0] ++ A ++ [0] ++ P = Z ++ [0] ++ A ++ [0] ++ P
        ↔ Z.length = A.length) := by
  have htake : (Z ++ 0 :: tz).take A.length = Z.take A.length :=
    List.take_append_of_le_length hle
  have hz : memcpySrc (some (Z ++ 0 :: tz))
      (if some (Z ++ 0 :: tz) = none then 0 else A.length) = some (Z.take A.length) := by
    have hle2 : A.length ≤ (Z ++ 0 :: tz).length := by simp; omega
    simp only [reduceCtorEq, if_false, memcpySrc, hle2, if_true, htake]
    split
    · rename_i h0; simp [h0]
    · rfl
  obtain ⟨h1, hc, ho⟩ := create_observed h _ A ta P tp _ hA hP g0 g1 hz
  have hl : (Z.take A.length).length = A.length := by simp [hle]
  refine ⟨strlenArr_append Z tz hZ, h1, hc, ?_, ?_⟩
  · rw [ho, hl]
    congr 3
    omega
  · constructor
    · intro he
      have hlen := congrArg List.length he
      simp at hlen
      omega
    · intro he
      rw [← he, List.take_length]

/-- C16, on the empty heap with authzid "abc", authcid "de" and passwd "p":
the init bytes are `ab\0de\0p`. -/
theorem saslplain_create_truncates_authzid_witness :
    0 ∉ ascii "abc" ∧ 0 ∉ ascii "de" ∧ 0 ∉ ascii "p" ∧
    (ascii "de").length ≤ (ascii "abc").length ∧ grants emptyHeap 0 ∧ grants emptyHeap 1 ∧
    strlen (some (ascii "abc" ++ 0 :: [])) = some (ascii "abc").length ∧
    ∃ h1, saslplain_create emptyHeap
        (some ⟨some (ascii "abc" ++ 0 :: []), some (ascii "de" ++ 0 :: []),
          some (ascii "p" ++ 0 :: [])⟩) = some (Ptr.addr (fresh emptyHeap.live), h1) ∧
      observe_init_bytes h1 (Ptr.addr (fresh emptyHeap.live))
        = some (0, 2 * (ascii "de").length + (ascii "p").length + 2,
            (ascii "abc").take (ascii "de").length ++ [0] ++ ascii "de" ++ [0] ++ ascii "p") ∧
      ((ascii "abc").take (ascii "de").length ++ [0] ++ ascii "de" ++ [0] ++ ascii "p"
          = ascii "abc" ++ [0] ++ ascii "de" ++ [0] ++ ascii "p"
        ↔ (ascii "abc").length = (ascii "de").length) :=
  ⟨by decide, by decide, by decide, by decide, by decide, by decide,
    saslplain_create_truncates_authzid emptyHeap (ascii "abc") [] (ascii "de") [] (ascii "p") []
      (by decide) (by decide) (by decide) (by decide) (by decide) (by decide)⟩

/-- C17: on every run of `saslplain_create` that returns an instance, the
record of the indices stored into `init_bytes` by the three copies and the
two separator stores holds only indices below the allocated size, holds
every index below the allocated size exactly once, the allocated size is
the stored `init_bytes_length`, and every byte of the buffer is initialised
(`saslplain_get_init_bytes` followed by a read of the whole buffer is
defined). -/
theorem saslplain_create_stores_tile_buffer (h : Heap) (cfg : Option SASL_PLAIN_CONFIG)
    (a : Nat) (h1 : Heap) (hc : saslplain_create h cfg = some (Ptr.addr a, h1)) :
    ∃ w n, saslplain_create_traced h cfg = some (Ptr.addr a, h1, w) ∧
      buffer_size h1 (Ptr.addr a) = some n ∧
      get_init_bytes_length_field h1 a = some n ∧
      (∀ i ∈ w, i < n) ∧ (∀ i, i < n → w.count i = 1) ∧
      ∃ bs, observe_init_bytes h1 (Ptr.addr a) = some (0, n, bs) := by
  obtain ⟨z, A, ta, P, tp, zb, hcfg, hA, hP, g0, g1, hz, ha, hh⟩ := create_shape h cfg a h1 hc
  obtain ⟨L, s⟩ := h
  subst hcfg ha hh
  have hlen : (zb ++ 0 :: (A ++ 0 :: P)).length = zb.length + A.length + P.length + 2 := by
    simp; omega
  refine ⟨List.range (zb.length + A.length + P.length + 2),
    zb.length + A.length + P.length + 2,
    traced_granted L s z A ta P tp zb hA hP g0 g1 hz, ?_, ?_, ?_, ?_, ?_⟩
  · rw [← hlen]
    exact buffer_size_created L (s.drop 2) (fresh L) _ _
  · exact length_field_created L (s.drop 2) (fresh L) _ _ _
  · intro i hi
    exact List.mem_range.mp hi
  · intro i hi
    exact List.count_eq_one_of_mem (List.nodup_range _) (List.mem_range.mpr hi)
  · exact ⟨_, observe_created L (s.drop 2) (fresh L) _ _ hlen.symm⟩

/-- C17, on the instance created on the empty heap from authcid "bob" and
passwd "pw". -/
theorem saslplain_create_stores_tile_buffer_witness :
    saslplain_create emptyHeap (some ⟨none, some (ascii "bob" ++ [0]), some (ascii "pw" ++ [0])⟩)
      = some (Ptr.addr 1,
          ⟨[(2, Block.bytes (([0] ++ ascii "bob" ++ [0] ++ ascii "pw").map some)),
            (1, Block.inst (some (Ptr.addr 2)) (some 7))], []⟩) ∧
    ∃ w n, saslplain_create_traced emptyHeap
        (some ⟨none, some (ascii "bob" ++ [0]), some (ascii "pw" ++ [0])⟩)
        = some (Ptr.addr 1,
            ⟨[(2, Block.bytes (([0] ++ ascii "bob" ++ [0] ++ ascii "pw").map some)),
              (1, Block.inst (some (Ptr.addr 2)) (some 7))], []⟩, w) ∧
      buffer_size ⟨[(2, Block.bytes (([0] ++ ascii "bob" ++ [0] ++ ascii "pw").map some)),
          (1, Block.inst (some (Ptr.addr 2)) (some 7))], []⟩ (Ptr.addr 1) = some n ∧
      get_init_bytes_length_field
        ⟨[(2, Block.bytes (([0] ++ ascii "bob" ++ [0] ++ ascii "pw").map some)),
          (1, Block.inst (some (Ptr.addr 2)) (some 7))], []⟩ 1 = some n ∧
      (∀ i ∈ w, i < n) ∧ (∀ i, i < n → w.count i = 1) ∧
      ∃ bs, observe_init_bytes
        ⟨[(2, Block.bytes (([0] ++ ascii "bob" ++ [0] ++ ascii "pw").map some)),
          (1, Block.inst (some (Ptr.addr 2)) (some 7))], []⟩ (Ptr.addr 1) = some (0, n, bs) :=
  have hrun : saslplain_create emptyHeap
      (some ⟨none, some (ascii "bob" ++ [0]), some (ascii "pw" ++ [0])⟩)
      = some (Ptr.addr 1,
          ⟨[(2, Block.bytes (([0] ++ ascii "bob" ++ [0] ++ ascii "pw").map some)),
            (1, Block.inst (some (Ptr.addr 2)) (some 7))], []⟩) := rfl
  ⟨hrun, saslplain_create_stores_tile_buffer emptyHeap _ 1 _ hrun⟩

/-- C18: with authzid absent and both allocations granted, the init bytes of
the instances created from NUL-free `(A1, P1)` and `(A2, P2)` are equal only
if `A1 = A2` and `P1 = P2`. -/
theorem saslplain_create_without_authzid_injective (h1 h2 : Heap)
    (A1 ta1 P1 tp1 A2 ta2 P2 tp2 : List Nat)
    (hA1 : 0 ∉ A1) (hP1 : 0 ∉ P1) (hA2 : 0 ∉ A2) (hP2 : 0 ∉ P2)
    (g10 : grants h1 0) (g11 : grants h1 1) (g20 : grants h2 0) (g21 : grants h2 1) :
    ∃ r1 s1 n1 bs1 r2 s2 n2 bs2,
      saslplain_create h1 (some ⟨none, some (A1 ++ 0 :: ta1), some (P1 ++ 0 :: tp1)⟩)
        = some (Ptr.addr r1, s1) ∧
      observe_init_bytes s1 (Ptr.addr r1) = some (0, n1, bs1) ∧
      saslplain_create h2 (some ⟨none, some (A2 ++ 0 :: ta2), some (P2 ++ 0 :: tp2)⟩)
        = some (Ptr.addr r2, s2) ∧
      observe_init_bytes s2 (Ptr.addr r2) = some (0, n2, bs2) ∧
      (bs1 = bs2 → A1 = A2 ∧ P1 = P2) := by
  obtain ⟨s1, hc1, ho1⟩ :=
    create_observed h1 none A1 ta1 P1 tp1 [] hA1 hP1 g10 g11 (by simp [memcpySrc])
  obtain ⟨s2, hc2, ho2⟩ :=
    create_observed h2 none A2 ta2 P2 tp2 [] hA2 hP2 g20 g21 (by simp [memcpySrc])
  refine ⟨_, s1, _, _, _, s2, _, _, hc1, ho1, hc2, ho2, ?_⟩
  intro he
  simp only [List.nil_append, List.singleton_append, List.append_assoc, List.cons_append,
    List.cons.injEq, true_and] at he
  obtain ⟨eA, eP⟩ := cstr_inj A1 A2 P1 P2 hA1 hA2 he
  exact ⟨eA, eP⟩

/-- C18, on the empty heap with ("bob", "pw") taken twice. -/
theorem saslplain_create_without_authzid_injective_witness :
    0 ∉ ascii "bob" ∧ 0 ∉ ascii "pw" ∧ grants emptyHeap 0 ∧ grants emptyHeap 1 ∧
    ∃ r1 s1 n1 bs1 r2 s2 n2 bs2,
      saslplain_create emptyHeap
        (some ⟨none, some (ascii "bob" ++ 0 :: []), some (ascii "pw" ++ 0 :: [])⟩)
        = some (Ptr.addr r1, s1) ∧
      observe_init_bytes s1 (Ptr.addr r1) = some (0, n1, bs1) ∧
      saslplain_create emptyHeap
        (some ⟨none, some (ascii "bob" ++ 0 :: []), some (ascii "pw" ++ 0 :: [])⟩)
        = some (Ptr.addr r2, s2) ∧
      observe_init_bytes s2 (Ptr.addr r2) = some (0, n2, bs2) ∧
      (bs1 = bs2 → ascii "bob" = ascii "bob" ∧ ascii "pw" = ascii "pw") :=
  ⟨by decide, by decide, by decide, by decide,
    saslplain_create_without_authzid_injective emptyHeap emptyHeap
      (ascii "bob") [] (ascii "pw") [] (ascii "bob") [] (ascii "pw") []
      (by decide) (by decide) (by decide) (by decide)
      (by decide) (by decide) (by decide) (by decide)⟩

end SaslPlain
